import Mathlib

/-!
Shallow embedding of the swiper attendance-compliance core: business-day
arithmetic (business_days.py), reporting-period resolution (reporting.py),
compliance and risk scoring (compliance.py), and the attendance record
store (storage.py), together with theorems checking the specification's
claims against the embedded code.

Calendar dates are modelled as integers counting days, with day 0 a
Monday, so that Python's `date.weekday()` (Monday = 0 .. Sunday = 6)
becomes `d % 7`. Python's floor `//` and `%` by the positive constant 7
coincide with Lean's Euclidean `Int` division and remainder used here.
-/

namespace Swiper

/-- Attendance status as used by models.py (`Literal` of the two values). -/
inductive Status where
  | inOffice
  | remote
deriving DecidableEq

/-- Attendance record (models.py `AttendanceRecord`). -/
structure AttendanceRecord where
  date : Int
  status : Status
deriving DecidableEq

/-- Business-day calculator state: business_days.py stores the exclusion
days as a set. -/
structure BusinessDayCalculator where
  exclusion_days : Finset Int

/-- Python `date.weekday()` under the day-0-is-Monday convention. -/
def weekday (d : Int) : Int := d % 7

/-- business_days.py `is_weekend`: the weekday is Saturday (5) or Sunday (6). -/
def is_weekend (d : Int) : Bool := decide (weekday d = 5 ∨ weekday d = 6)

/-- business_days.py `is_exclusion_day`: membership in the exclusion set. -/
def BusinessDayCalculator.is_exclusion_day (c : BusinessDayCalculator) (d : Int) : Bool :=
  decide (d ∈ c.exclusion_days)

/-- business_days.py `is_workday`: neither a weekend nor an exclusion day. -/
def BusinessDayCalculator.is_workday (c : BusinessDayCalculator) (d : Int) : Bool :=
  !is_weekend d && !c.is_exclusion_day d

/-- business_days.py `get_exclusions_in_range`: the exclusion-set members in
[start_date, end_date] that are not weekend days, sorted ascending. -/
def BusinessDayCalculator.get_exclusions_in_range
    (c : BusinessDayCalculator) (start_date end_date : Int) : List Int :=
  Finset.sort (· ≤ ·)
    (c.exclusion_days.filter
      (fun d => start_date ≤ d ∧ d ≤ end_date ∧ is_weekend d = false))

/-- business_days.py `count_workdays`: total calendar days, minus a weekend
count derived from complete 7-day weeks (2 each) plus a remainder-offset
scan, minus the weekday exclusions in range. -/
def BusinessDayCalculator.count_workdays
    (c : BusinessDayCalculator) (start_date end_date : Int) : Int :=
  let total_days : Int := end_date - start_date + 1
  let start_weekday : Int := weekday start_date
  let complete_weeks : Int := total_days / 7
  let remaining_days : Int := total_days % 7
  let scan : Nat := (List.range remaining_days.toNat).countP
    (fun (i : Nat) =>
      decide ((start_weekday + (i : Int)) % 7 = 5 ∨ (start_weekday + (i : Int)) % 7 = 6))
  let weekend_days : Int := complete_weeks * 2 + (scan : Int)
  let exclusion_count : Int := ((c.get_exclusions_in_range start_date end_date).length : Int)
  total_days - weekend_days - exclusion_count

/-- Reference definition following the specification's words for claim C3:
the naive day-by-day count of dates d in the inclusive range
[start_date, end_date] for which `is_workday d` holds. -/
def count_workdays_naive (c : BusinessDayCalculator) (start_date end_date : Int) : Int :=
  (((Finset.Icc start_date end_date).filter (fun d => c.is_workday d = true)).card : Int)

/-- Auxiliary counting function: how many offsets i < n land on a weekend
when the range starts on weekday w. This is the shape of the remainder
scan inside `count_workdays`, lifted to natural numbers for reasoning. -/
def weekend_scan (w n : Nat) : Nat :=
  (List.range n).countP (fun i => decide ((w + i) % 7 = 5 ∨ (w + i) % 7 = 6))

/-- Reporting period (models.py `ReportingPeriod`). -/
structure ReportingPeriod where
  period_number : Int
  start_date : Int
  end_date : Int
  report_date : Int
  baseline_required_days : Int
  exclusion_days : List Int
  effective_required_days : Int
deriving DecidableEq

/-- Typed errors raised by the embedded code (exceptions.py
`ValidationError` and `StorageError`). -/
inductive SwiperError where
  | validation (msg : String)
  | storage (msg : String)
deriving DecidableEq

/-- Reporting-period calculator state (reporting.py): the configured period
sequence and a business-day calculator. -/
structure ReportingPeriodCalculator where
  periods : List ReportingPeriod
  business_day_calc : BusinessDayCalculator

/-- Loop of reporting.py `get_period_for_date`: return the first period in
configured order containing the date, else raise a `ValidationError`. -/
def find_period (check_date : Int) :
    List ReportingPeriod → Except SwiperError ReportingPeriod
  | [] => .error (.validation "No reporting period defined for date")
  | p :: rest =>
    if p.start_date ≤ check_date ∧ check_date ≤ p.end_date then .ok p
    else find_period check_date rest

/-- reporting.py `get_period_for_date`. -/
def ReportingPeriodCalculator.get_period_for_date
    (pcalc : ReportingPeriodCalculator) (check_date : Int) :
    Except SwiperError ReportingPeriod :=
  find_period check_date pcalc.periods

/-- reporting.py `calculate_effective_required_days`: baseline required days
minus the number of weekday exclusions in the period's range, floored at 0. -/
def ReportingPeriodCalculator.calculate_effective_required_days
    (pcalc : ReportingPeriodCalculator) (period : ReportingPeriod) : Int :=
  let exclusions :=
    pcalc.business_day_calc.get_exclusions_in_range period.start_date period.end_date
  max 0 (period.baseline_required_days - (exclusions.length : Int))

/-- Attendance store contents as consumed by the compliance layer: the
record collection storage.py persists as date-to-status maps. -/
structure AttendanceStore where
  data : List AttendanceRecord

/-- storage.py `load_records` as seen by the compliance layer: the stored
records inside the inclusive range, sorted by date. -/
def AttendanceStore.load_records (store : AttendanceStore)
    (start_date end_date : Int) : List AttendanceRecord :=
  (store.data.filter
      (fun r => decide (start_date ≤ r.date) && decide (r.date ≤ end_date))).mergeSort
    (fun a b => decide (a.date ≤ b.date))

/-- storage.py `save_record`: overwrite-by-date mutation of the store. It
gives the store's write operation a meaning in the state-passing model;
the compliance checker never invokes it. -/
def AttendanceStore.save_record (store : AttendanceStore)
    (record : AttendanceRecord) : AttendanceStore :=
  ⟨record :: store.data.filter (fun r => decide (r.date ≠ record.date))⟩

/-- State-passing view of a store read: storage.py `load_records` only
reads year files and performs no write, so it returns the store state
unchanged alongside its result. -/
def AttendanceStore.load_records_st (store : AttendanceStore)
    (start_date end_date : Int) : List AttendanceRecord × AttendanceStore :=
  (store.load_records start_date end_date, store)

/-- Risk classification labels (compliance.py `RiskLevel`). -/
inductive RiskLevel where
  | impossible
  | critical
  | atRisk
  | possible
  | achieved
deriving DecidableEq

/-- Compliance status value (compliance.py `ComplianceStatus`). -/
structure ComplianceStatus where
  period : ReportingPeriod
  as_of_date : Int
  in_office_days : Int
  effective_required_days : Int
  remaining_required_days : Int
  remaining_workdays : Int
  risk_level : RiskLevel
  is_compliant : Bool
  is_achievable : Bool
deriving DecidableEq

/-- Compliance checker state (compliance.py): a period calculator, a
business-day calculator, and the attendance store handle. -/
structure ComplianceChecker where
  period_calc : ReportingPeriodCalculator
  business_day_calc : BusinessDayCalculator
  store : AttendanceStore

/-- compliance.py `_calculate_risk_level`: the ordered rule chain. -/
def calculate_risk_level (remaining_required remaining_workdays : Int)
    (is_compliant : Bool) : RiskLevel :=
  if is_compliant then .achieved
  else if remaining_required > remaining_workdays then .impossible
  else
    let buffer_days := remaining_workdays - remaining_required
    if buffer_days = 0 then .critical
    else if buffer_days < 5 then .atRisk
    else .possible

/-- compliance.py `calculate_compliance_status`, with the store handled in
state-passing style (the pair's second component is the store state after
the call). -/
def ComplianceChecker.calculate_compliance_status
    (checker : ComplianceChecker) (period : ReportingPeriod) (as_of_date : Int) :
    ComplianceStatus × AttendanceStore :=
  let effective_required := checker.period_calc.calculate_effective_required_days period
  let end_for_calculation := min as_of_date period.end_date
  let loaded := checker.store.load_records_st period.start_date end_for_calculation
  let records := loaded.1
  let store1 := loaded.2
  let in_office_days : Int :=
    ((records.countP (fun r => decide (r.status = Status.inOffice)) : Nat) : Int)
  let remaining_required := max 0 (effective_required - in_office_days)
  let remaining_workdays : Int :=
    if as_of_date ≥ period.end_date then 0
    else checker.business_day_calc.count_workdays (as_of_date + 1) period.end_date
  let is_compliant := decide (in_office_days ≥ effective_required)
  let is_achievable := decide (remaining_required ≤ remaining_workdays)
  let risk_level := calculate_risk_level remaining_required remaining_workdays is_compliant
  (⟨period, as_of_date, in_office_days, effective_required, remaining_required,
    remaining_workdays, risk_level, is_compliant, is_achievable⟩, store1)

/-- compliance.py `predict_compliance`, with the store handled in
state-passing style. -/
def ComplianceChecker.predict_compliance
    (checker : ComplianceChecker) (period : ReportingPeriod)
    (planned_in_office_dates : List Int) (as_of_date : Int) :
    ComplianceStatus × AttendanceStore :=
  let current := checker.calculate_compliance_status period as_of_date
  let current_status := current.1
  let store1 := current.2
  let additional_days : Int :=
    ((planned_in_office_dates.countP (fun planned_date =>
      decide (planned_date > as_of_date) &&
      decide (period.start_date ≤ planned_date) &&
      decide (planned_date ≤ period.end_date) &&
      checker.business_day_calc.is_workday planned_date) : Nat) : Int)
  let projected_in_office_days := current_status.in_office_days + additional_days
  let projected_remaining_required :=
    max 0 (current_status.effective_required_days - projected_in_office_days)
  let projected_remaining_workdays : Int := 0
  let projected_is_compliant :=
    decide (projected_in_office_days ≥ current_status.effective_required_days)
  let projected_is_achievable := decide (projected_remaining_required = 0)
  let projected_risk_level := calculate_risk_level
    projected_remaining_required projected_remaining_workdays projected_is_compliant
  (⟨period, period.end_date, projected_in_office_days,
    current_status.effective_required_days, projected_remaining_required,
    projected_remaining_workdays, projected_risk_level,
    projected_is_compliant, projected_is_achievable⟩, store1)

namespace Storage

/-- Calendar date for the storage layer: a (year, day-within-year) pair
ordered chronologically. -/
structure SDate where
  year : Int
  day : Int
deriving DecidableEq

/-- Chronological order on storage dates. -/
def SDate.le (a b : SDate) : Prop :=
  a.year < b.year ∨ (a.year = b.year ∧ a.day ≤ b.day)

instance SDate.decLe (a b : SDate) : Decidable (a.le b) :=
  inferInstanceAs (Decidable (_ ∨ _))

/-- storage.py `_validate_record_data` as a predicate: the persisted status
must be "in-office" or "remote", anything else raises a `StorageError`. -/
def valid_status (status : String) : Bool :=
  status == "in-office" || status == "remote"

/-- Per-entry processing of one year file inside storage.py `load_records`:
parse the persisted date text (`StorageError` on failure), validate the
status (`StorageError` on an invalid value), and only then keep the record
when it lies in the requested range. The ISO-8601 text parse itself is
abstracted as the `parse` argument. -/
def process_year_entries (parse : String → Option SDate) (s e : SDate) :
    List (String × String) → Except SwiperError (List (SDate × String))
  | [] => .ok []
  | (date_str, status) :: rest =>
    match parse date_str with
    | none => .error (.storage "Invalid date format in year data")
    | some d =>
      if valid_status status = false then .error (.storage "Invalid attendance status")
      else
        match process_year_entries parse s e rest with
        | .error msg => .error msg
        | .ok tail => .ok (if s.le d ∧ d.le e then (d, status) :: tail else tail)

/-- Year loop of storage.py `load_records`: process each year file in turn,
propagating the first error. -/
def load_years (parse : String → Option SDate)
    (files : Int → List (String × String)) (s e : SDate) :
    List Int → Except SwiperError (List (SDate × String))
  | [] => .ok []
  | y :: rest =>
    match process_year_entries parse s e (files y) with
    | .error msg => .error msg
    | .ok recs =>
      match load_years parse files s e rest with
      | .error msg => .error msg
      | .ok more => .ok (recs ++ more)

/-- storage.py `load_records`: iterate the year files for years in
[start.year, end.year], validating every entry and filtering to the
inclusive range, then sort the collected records by date. The store's
file contents are modelled by `files` (year number to that year file's
entries; a missing file is the empty list). -/
def load_records (parse : String → Option SDate)
    (files : Int → List (String × String)) (s e : SDate) :
    Except SwiperError (List (SDate × String)) :=
  let years := (List.range (e.year - s.year + 1).toNat).map
    (fun (i : Nat) => s.year + (i : Int))
  match load_years parse files s e years with
  | .error msg => .error msg
  | .ok recs => .ok (recs.mergeSort (fun a b => decide (a.1.le b.1)))

end Storage

/-! ## Theorems -/

/-- C2: the risk classifier is a total function of (remaining_required,
remaining_workdays, is_compliant) applying the ordered rules: compliant
means "achieved"; otherwise more required than workdays left means
"impossible"; otherwise with nonnegative buffer = workdays minus required,
buffer 0 is "critical", buffer below 5 is "at-risk", buffer at least 5 is
"possible" — for any inputs exactly one of the five labels applies. -/
theorem calculate_risk_level_spec (rr rw : Int) (ic : Bool) :
    (calculate_risk_level rr rw ic = .achieved ↔ ic = true)
    ∧ (calculate_risk_level rr rw ic = .impossible ↔ ic = false ∧ rw < rr)
    ∧ (calculate_risk_level rr rw ic = .critical ↔ ic = false ∧ rr ≤ rw ∧ rw - rr = 0)
    ∧ (calculate_risk_level rr rw ic = .atRisk ↔
        ic = false ∧ rr ≤ rw ∧ 0 < rw - rr ∧ rw - rr < 5)
    ∧ (calculate_risk_level rr rw ic = .possible ↔
        ic = false ∧ rr ≤ rw ∧ 5 ≤ rw - rr) := by
  cases ic with
  | true => simp [calculate_risk_level]
  | false =>
    simp only [calculate_risk_level]
    split_ifs
    all_goals simp_all
    all_goals omega

/-- C6: the effective required days equal the baseline minus the number of
weekday exclusions in range, floored at 0; the result is never negative;
and inserting a weekend date into the exclusion set never changes it. -/
theorem calculate_effective_required_days_spec
    (pcalc : ReportingPeriodCalculator) (period : ReportingPeriod) :
    pcalc.calculate_effective_required_days period =
      max 0 (period.baseline_required_days -
        ((pcalc.business_day_calc.get_exclusions_in_range
            period.start_date period.end_date).length : Int))
    ∧ 0 ≤ pcalc.calculate_effective_required_days period
    ∧ ∀ w : Int, is_weekend w = true →
        ReportingPeriodCalculator.calculate_effective_required_days
          ⟨pcalc.periods, ⟨insert w pcalc.business_day_calc.exclusion_days⟩⟩ period =
          pcalc.calculate_effective_required_days period := by
  refine ⟨rfl, le_max_left 0 _, ?_⟩
  intro w hw
  have hfilter :
      (insert w pcalc.business_day_calc.exclusion_days).filter
          (fun d => period.start_date ≤ d ∧ d ≤ period.end_date ∧ is_weekend d = false) =
        pcalc.business_day_calc.exclusion_days.filter
          (fun d => period.start_date ≤ d ∧ d ≤ period.end_date ∧ is_weekend d = false) := by
    rw [Finset.filter_insert, if_neg (by simp [hw])]
  simp only [ReportingPeriodCalculator.calculate_effective_required_days,
    BusinessDayCalculator.get_exclusions_in_range, hfilter]

/-- C6 witness: the theorem applied at a concrete calculator, period and
weekend day. -/
theorem calculate_effective_required_days_spec_witness :
    is_weekend 5 = true ∧
      ReportingPeriodCalculator.calculate_effective_required_days
        ⟨[], ⟨insert 5 (⟨[], ⟨{7}⟩⟩ : ReportingPeriodCalculator).business_day_calc.exclusion_days⟩⟩
        ⟨1, 0, 13, 20, 10, [], 0⟩ =
      ReportingPeriodCalculator.calculate_effective_required_days ⟨[], ⟨{7}⟩⟩
        ⟨1, 0, 13, 20, 10, [], 0⟩ :=
  ⟨by decide,
    (calculate_effective_required_days_spec ⟨[], ⟨{7}⟩⟩ ⟨1, 0, 13, 20, 10, [], 0⟩).2.2 5
      (by decide)⟩

/-- Unfolding of the `get_period_for_date` loop into a first-match search. -/
theorem find_period_eq_find (d : Int) (l : List ReportingPeriod) :
    find_period d l =
      (match l.find? (fun p => decide (p.start_date ≤ d ∧ d ≤ p.end_date)) with
        | some p => Except.ok p
        | none => Except.error (.validation "No reporting period defined for date")) := by
  induction l with
  | nil => rfl
  | cons p rest ih =>
    by_cases h : p.start_date ≤ d ∧ d ≤ p.end_date
    · simp [find_period, h, List.find?_cons]
    · simp [find_period, h, List.find?_cons, ih]

/-- C7: `get_period_for_date` returns the first period in configured order
containing the date (overlaps resolved by order), and produces a
validation error exactly when no configured period contains the date
(in particular when the period list is empty). -/
theorem get_period_for_date_spec (pcalc : ReportingPeriodCalculator) (d : Int) :
    (∀ p : ReportingPeriod,
      pcalc.get_period_for_date d = .ok p ↔
        pcalc.periods.find? (fun q => decide (q.start_date ≤ d ∧ d ≤ q.end_date)) = some p)
    ∧ ((∃ msg, pcalc.get_period_for_date d = .error (.validation msg)) ↔
        ∀ p ∈ pcalc.periods, ¬(p.start_date ≤ d ∧ d ≤ p.end_date)) := by
  have hmain := find_period_eq_find d pcalc.periods
  constructor
  · intro p
    rw [ReportingPeriodCalculator.get_period_for_date, hmain]
    cases hfind : pcalc.periods.find?
        (fun q => decide (q.start_date ≤ d ∧ d ≤ q.end_date)) with
    | none => simp
    | some q => simp
  · rw [ReportingPeriodCalculator.get_period_for_date, hmain]
    cases hfind : pcalc.periods.find?
        (fun q => decide (q.start_date ≤ d ∧ d ≤ q.end_date)) with
    | none =>
      rw [List.find?_eq_none] at hfind
      simp only [decide_eq_true_eq] at hfind
      exact ⟨fun _ => hfind,
        fun _ => ⟨"No reporting period defined for date", rfl⟩⟩
    | some q =>
      have hq := List.find?_some hfind
      have hqmem := List.mem_of_find?_eq_some hfind
      simp only [decide_eq_true_eq] at hq
      exact ⟨fun ⟨msg, hmsg⟩ => Except.noConfusion hmsg,
        fun hall => (hall q hqmem hq).elim⟩

/-- C5: for start ≤ end, `get_exclusions_in_range` returns exactly the
exclusion-set dates inside the inclusive range whose weekday is not
Saturday or Sunday, sorted ascending; in particular no returned date is a
weekend day. -/
theorem get_exclusions_in_range_spec (c : BusinessDayCalculator) (s e : Int)
    (h : s ≤ e) :
    (∀ d : Int, d ∈ c.get_exclusions_in_range s e ↔
      d ∈ c.exclusion_days ∧ s ≤ d ∧ d ≤ e ∧ is_weekend d = false)
    ∧ List.Sorted (· ≤ ·) (c.get_exclusions_in_range s e)
    ∧ ∀ d ∈ c.get_exclusions_in_range s e, is_weekend d = false := by
  refine ⟨?_, Finset.sort_sorted _ _, ?_⟩
  · intro d
    rw [BusinessDayCalculator.get_exclusions_in_range, Finset.mem_sort,
      Finset.mem_filter]
  · intro d hd
    rw [BusinessDayCalculator.get_exclusions_in_range, Finset.mem_sort,
      Finset.mem_filter] at hd
    exact hd.2.2.2

/-- C5 witness: the theorem applied at a concrete calculator and range. -/
theorem get_exclusions_in_range_spec_witness :
    (0 : Int) ≤ 10 ∧
      ((∀ d : Int,
          d ∈ BusinessDayCalculator.get_exclusions_in_range ⟨{2, 5, 9}⟩ 0 10 ↔
            d ∈ ({2, 5, 9} : Finset Int) ∧ 0 ≤ d ∧ d ≤ 10 ∧ is_weekend d = false)
        ∧ List.Sorted (· ≤ ·)
            (BusinessDayCalculator.get_exclusions_in_range ⟨{2, 5, 9}⟩ 0 10)
        ∧ ∀ d ∈ BusinessDayCalculator.get_exclusions_in_range ⟨{2, 5, 9}⟩ 0 10,
            is_weekend d = false) :=
  ⟨by decide, get_exclusions_in_range_spec ⟨{2, 5, 9}⟩ 0 10 (by decide)⟩

/-- C1: for every reporting period and as_of_date, the status returned by
`calculate_compliance_status` satisfies: effective_required_days is the
period calculator's result; in_office_days counts loaded records with
status in-office in [period.start_date, min as_of_date period.end_date];
remaining_required_days = max 0 (effective - in_office); remaining_workdays
is 0 once as_of_date has reached period.end_date and otherwise
count_workdays (as_of_date + 1) period.end_date; is_compliant holds iff
in_office_days ≥ effective_required_days; and is_achievable holds iff
remaining_required_days ≤ remaining_workdays. -/
theorem calculate_compliance_status_spec (checker : ComplianceChecker)
    (period : ReportingPeriod) (as_of_date : Int) :
    let st := (checker.calculate_compliance_status period as_of_date).1
    let eff := checker.period_calc.calculate_effective_required_days period
    let in_office : Int :=
      (((checker.store.load_records period.start_date
          (min as_of_date period.end_date)).countP
        (fun r => decide (r.status = Status.inOffice)) : Nat) : Int)
    st.effective_required_days = eff
    ∧ st.in_office_days = in_office
    ∧ st.remaining_required_days = max 0 (eff - in_office)
    ∧ st.remaining_workdays = (if period.end_date ≤ as_of_date then 0
        else checker.business_day_calc.count_workdays (as_of_date + 1) period.end_date)
    ∧ (st.is_compliant = true ↔ eff ≤ in_office)
    ∧ (st.is_achievable = true ↔ st.remaining_required_days ≤ st.remaining_workdays) := by
  refine ⟨rfl, rfl, rfl, rfl, ?_, ?_⟩ <;>
    simp [ComplianceChecker.calculate_compliance_status, AttendanceStore.load_records_st]

/-- C4: `predict_compliance` counts as additional in-office days exactly the
planned dates strictly after as_of_date, inside the period's range, and
classified as workdays (all other planned dates are ignored), and returns a
status with remaining_workdays 0, is_compliant iff the projected in-office
count reaches the effective requirement, is_achievable iff the projected
remaining requirement is 0, and as_of_date reported as period.end_date. -/
theorem predict_compliance_spec (checker : ComplianceChecker)
    (period : ReportingPeriod) (planned : List Int) (as_of_date : Int) :
    let pst := (checker.predict_compliance period planned as_of_date).1
    let current := (checker.calculate_compliance_status period as_of_date).1
    let additional : Int :=
      ((planned.countP (fun pd =>
        decide (as_of_date < pd) && decide (period.start_date ≤ pd) &&
        decide (pd ≤ period.end_date) &&
        checker.business_day_calc.is_workday pd) : Nat) : Int)
    pst.in_office_days = current.in_office_days + additional
    ∧ pst.effective_required_days = current.effective_required_days
    ∧ pst.remaining_required_days =
        max 0 (current.effective_required_days - pst.in_office_days)
    ∧ pst.remaining_workdays = 0
    ∧ (pst.is_compliant = true ↔
        current.effective_required_days ≤ pst.in_office_days)
    ∧ (pst.is_achievable = true ↔ pst.remaining_required_days = 0)
    ∧ pst.as_of_date = period.end_date := by
  refine ⟨rfl, rfl, rfl, rfl, ?_, ?_, rfl⟩ <;>
    simp [ComplianceChecker.predict_compliance]

/-- C9: every status produced by `calculate_compliance_status` or
`predict_compliance` satisfies is_compliant iff remaining_required_days = 0,
and for `predict_compliance` results is_achievable equals is_compliant. -/
theorem compliance_status_invariant (checker : ComplianceChecker)
    (period : ReportingPeriod) (planned : List Int) (as_of_date : Int) :
    let st := (checker.calculate_compliance_status period as_of_date).1
    let pst := (checker.predict_compliance period planned as_of_date).1
    (st.is_compliant = true ↔ st.remaining_required_days = 0)
    ∧ (pst.is_compliant = true ↔ pst.remaining_required_days = 0)
    ∧ pst.is_achievable = pst.is_compliant := by
  refine ⟨?_, ?_, ?_⟩
  · simp only [ComplianceChecker.calculate_compliance_status, decide_eq_true_eq]
    constructor <;> intro h <;> omega
  · simp only [ComplianceChecker.predict_compliance,
      ComplianceChecker.calculate_compliance_status, decide_eq_true_eq]
    constructor <;> intro h <;> omega
  · simp only [ComplianceChecker.predict_compliance,
      ComplianceChecker.calculate_compliance_status]
    rw [decide_eq_decide]
    omega

/-- Counting matching indices below n as a list count or as a finset-filter
cardinality gives the same value. -/
theorem countP_range_eq_card (n : Nat) (p : Nat → Prop) [DecidablePred p] :
    (List.range n).countP (fun i => decide (p i)) = ((Finset.range n).filter p).card := by
  induction n with
  | zero => rfl
  | succ n ih =>
    rw [List.range_succ, List.countP_append, Finset.range_succ, Finset.filter_insert]
    by_cases h : p n
    · rw [if_pos h, Finset.card_insert_of_not_mem (by simp)]
      simp [h, ih]
    · rw [if_neg h]
      simp [h, ih]

/-- Any aligned block of 7 consecutive offsets contains exactly 2 weekend
offsets. -/
theorem weekend_scan_seven (w : Nat) (hw : w < 7) : weekend_scan w 7 = 2 := by
  interval_cases w <;> rfl

/-- Splitting the weekend scan at a full leading week. -/
theorem weekend_scan_add_seven (w n : Nat) :
    weekend_scan w (7 + n) = weekend_scan w 7 + weekend_scan w n := by
  unfold weekend_scan
  rw [List.range_add, List.countP_append, List.countP_map]
  have hfun : ((fun i => decide ((w + i) % 7 = 5 ∨ (w + i) % 7 = 6)) ∘ fun x => 7 + x)
      = fun i => decide ((w + i) % 7 = 5 ∨ (w + i) % 7 = 6) := by
    funext i
    simp only [Function.comp]
    rw [decide_eq_decide]
    omega
  rw [hfun]

/-- The remainder-scan formula: the weekend count below n is 2 per complete
week plus the scan over the remainder offsets. -/
theorem weekend_scan_formula (w : Nat) (hw : w < 7) :
    ∀ n, weekend_scan w n = 2 * (n / 7) + weekend_scan w (n % 7) := by
  intro n
  induction n using Nat.strong_induction_on with
  | _ n ih =>
    by_cases h : n < 7
    · rw [Nat.div_eq_of_lt h, Nat.mod_eq_of_lt h]
      omega
    · obtain ⟨m, rfl⟩ : ∃ m, n = 7 + m := ⟨n - 7, by omega⟩
      rw [weekend_scan_add_seven, weekend_scan_seven w hw, ih m (by omega)]
      have h1 : (7 + m) / 7 = m / 7 + 1 := by omega
      have h2 : (7 + m) % 7 = m % 7 := by omega
      rw [h1, h2]
      ring

/-- Reindexing a filtered count over the integer interval [s, e] as a count
over offsets below its length. -/
theorem card_Icc_filter_countP (s e : Int) (p : Int → Prop) [DecidablePred p] :
    ((Finset.Icc s e).filter p).card
      = (List.range (e - s + 1).toNat).countP
          (fun (i : Nat) => decide (p (s + (i : Int)))) := by
  rw [countP_range_eq_card]
  apply Finset.card_nbij' (fun d => (d - s).toNat) (fun i => s + (i : Int))
  · intro d hd
    simp only [Finset.mem_filter, Finset.mem_Icc] at hd
    simp only [Finset.mem_filter, Finset.mem_range]
    refine ⟨by omega, ?_⟩
    rw [show s + (((d - s).toNat : Nat) : Int) = d from by omega]
    exact hd.2
  · intro i hi
    simp only [Finset.mem_filter, Finset.mem_range] at hi
    simp only [Finset.mem_filter, Finset.mem_Icc]
    exact ⟨⟨by omega, by omega⟩, hi.2⟩
  · intro d hd
    simp only [Finset.mem_filter, Finset.mem_Icc] at hd
    omega
  · intro i hi
    simp only [Finset.mem_filter, Finset.mem_range] at hi
    omega

/-- The scan inside `count_workdays`, rewritten as `weekend_scan`. -/
theorem scan_eq_weekend_scan (s : Int) (m : Nat) :
    (List.range m).countP
        (fun (i : Nat) =>
          decide ((weekday s + (i : Int)) % 7 = 5 ∨ (weekday s + (i : Int)) % 7 = 6))
      = weekend_scan (weekday s).toNat m := by
  unfold weekend_scan weekday
  congr 1
  funext i
  rw [decide_eq_decide]
  omega

/-- Closed form of `count_workdays` in terms of `weekend_scan`. -/
theorem count_workdays_closed (c : BusinessDayCalculator) (s e : Int) :
    c.count_workdays s e =
      (e - s + 1) - ((e - s + 1) / 7 * 2 +
          ((weekend_scan (weekday s).toNat ((e - s + 1) % 7).toNat : Nat) : Int))
        - ((c.get_exclusions_in_range s e).length : Int) := by
  simp only [BusinessDayCalculator.count_workdays]
  rw [scan_eq_weekend_scan]

/-- Equivalence of `count_workdays` with the naive day-by-day reference
count on ranges with start ≤ end. -/
theorem count_workdays_eq_naive (c : BusinessDayCalculator) (s e : Int)
    (h : s ≤ e) :
    c.count_workdays s e = count_workdays_naive c s e := by
  have hn : (0 : Int) ≤ e - s + 1 := by omega
  have hw7 : (weekday s).toNat < 7 := by
    unfold weekday
    omega
  -- the weekend-day count over the interval
  have hW : ((Finset.Icc s e).filter (fun d => is_weekend d = true)).card
      = 2 * ((e - s + 1).toNat / 7) +
        weekend_scan (weekday s).toNat ((e - s + 1).toNat % 7) := by
    rw [card_Icc_filter_countP]
    have hpred : (fun (i : Nat) => decide (is_weekend (s + (i : Int)) = true))
        = fun (i : Nat) =>
            decide (((weekday s).toNat + i) % 7 = 5 ∨ ((weekday s).toNat + i) % 7 = 6) := by
      funext i
      rw [decide_eq_decide]
      simp only [is_weekend, weekday, decide_eq_true_eq]
      omega
    rw [hpred]
    exact weekend_scan_formula (weekday s).toNat hw7 (e - s + 1).toNat
  -- the exclusion count used by the code, over the interval
  have hE : ((c.get_exclusions_in_range s e).length : Nat)
      = ((Finset.Icc s e).filter
          (fun d => is_weekend d = false ∧ d ∈ c.exclusion_days)).card := by
    rw [BusinessDayCalculator.get_exclusions_in_range, Finset.length_sort]
    congr 1
    ext d
    simp only [Finset.mem_filter, Finset.mem_Icc]
    tauto
  -- partition of the interval into weekend and non-weekend days
  have hP1 : ((Finset.Icc s e).filter (fun d => is_weekend d = true)).card
      + ((Finset.Icc s e).filter (fun d => is_weekend d = false)).card
      = (Finset.Icc s e).card := by
    have := Finset.filter_card_add_filter_neg_card_eq_card
      (s := Finset.Icc s e) (p := fun d => is_weekend d = true)
    simpa [Bool.not_eq_true] using this
  -- partition of the non-weekend days by exclusion membership
  have hP2 : ((Finset.Icc s e).filter
        (fun d => is_weekend d = false ∧ d ∈ c.exclusion_days)).card
      + ((Finset.Icc s e).filter
        (fun d => is_weekend d = false ∧ d ∉ c.exclusion_days)).card
      = ((Finset.Icc s e).filter (fun d => is_weekend d = false)).card := by
    have := Finset.filter_card_add_filter_neg_card_eq_card
      (s := (Finset.Icc s e).filter (fun d => is_weekend d = false))
      (p := fun d => d ∈ c.exclusion_days)
    rw [Finset.filter_filter, Finset.filter_filter] at this
    exact this
  -- the naive count is the non-weekend non-excluded portion
  have hw_filter : (Finset.Icc s e).filter (fun d => c.is_workday d = true)
      = (Finset.Icc s e).filter
        (fun d => is_weekend d = false ∧ d ∉ c.exclusion_days) := by
    apply Finset.filter_congr
    intro d _
    simp [BusinessDayCalculator.is_workday, BusinessDayCalculator.is_exclusion_day,
      Bool.and_eq_true, Bool.not_eq_true']
  have hcard : (Finset.Icc s e).card = (e - s + 1).toNat := by
    rw [Int.card_Icc]
    congr 1
    ring
  rw [count_workdays_closed, count_workdays_naive, hw_filter]
  rw [show ((e - s + 1) % 7).toNat = (e - s + 1).toNat % 7 from by omega] at *
  omega

/-- C3: for start ≤ end, `count_workdays` — total days minus the
complete-weeks-plus-remainder-scan weekend count minus the weekday
exclusions in range — equals the naive reference count of workdays in the
inclusive range; in particular a one-day range counts 1 exactly when that
day is a workday. -/
theorem count_workdays_spec (c : BusinessDayCalculator) (s e : Int)
    (h : s ≤ e) :
    c.count_workdays s e = count_workdays_naive c s e
    ∧ ∀ d : Int, c.count_workdays d d = if c.is_workday d = true then 1 else 0 := by
  refine ⟨count_workdays_eq_naive c s e h, ?_⟩
  intro d
  rw [count_workdays_eq_naive c d d le_rfl, count_workdays_naive, Finset.Icc_self,
    Finset.filter_singleton]
  by_cases hd : c.is_workday d = true
  · rw [if_pos hd, if_pos hd]
    rfl
  · rw [if_neg hd, if_neg hd]
    rfl

/-- C3 witness: the theorem applied at a concrete calculator and range. -/
theorem count_workdays_spec_witness :
    (0 : Int) ≤ 13 ∧
      (BusinessDayCalculator.count_workdays ⟨{3, 5, 20}⟩ 0 13
          = count_workdays_naive ⟨{3, 5, 20}⟩ 0 13
        ∧ ∀ d : Int,
            BusinessDayCalculator.count_workdays ⟨{3, 5, 20}⟩ d d
              = if BusinessDayCalculator.is_workday ⟨{3, 5, 20}⟩ d = true then 1 else 0) :=
  ⟨by decide, count_workdays_spec ⟨{3, 5, 20}⟩ 0 13 (by decide)⟩

/-- C8: `predict_compliance` never mutates stored attendance data — the
store state after the call is the store state before it. -/
theorem predict_compliance_preserves_store (checker : ComplianceChecker)
    (period : ReportingPeriod) (planned : List Int) (as_of_date : Int) :
    (checker.predict_compliance period planned as_of_date).2 = checker.store := rfl

/-- Equation: a year-file entry whose date fails to parse aborts processing
with a date-format storage error. -/
theorem process_cons_none (parse : String → Option Storage.SDate)
    (s e : Storage.SDate) (ds st : String) (rest : List (String × String))
    (hp : parse ds = none) :
    Storage.process_year_entries parse s e ((ds, st) :: rest) =
      .error (.storage "Invalid date format in year data") := by
  simp [Storage.process_year_entries, hp]

/-- Equation: a year-file entry with an invalid status aborts processing
with a status storage error. -/
theorem process_cons_bad_status (parse : String → Option Storage.SDate)
    (s e : Storage.SDate) (ds st : String) (rest : List (String × String))
    (d : Storage.SDate) (hp : parse ds = some d)
    (hv : Storage.valid_status st = false) :
    Storage.process_year_entries parse s e ((ds, st) :: rest) =
      .error (.storage "Invalid attendance status") := by
  simp [Storage.process_year_entries, hp, hv]

/-- Equation: a valid entry propagates an error arising from the rest of the
file. -/
theorem process_cons_good_error (parse : String → Option Storage.SDate)
    (s e : Storage.SDate) (ds st : String) (rest : List (String × String))
    (d : Storage.SDate) (msg : SwiperError) (hp : parse ds = some d)
    (hv : Storage.valid_status st = true)
    (hr : Storage.process_year_entries parse s e rest = .error msg) :
    Storage.process_year_entries parse s e ((ds, st) :: rest) = .error msg := by
  simp [Storage.process_year_entries, hp, hv, hr]

/-- Equation: a valid entry is kept exactly when in range, on top of a
successfully processed rest of the file. -/
theorem process_cons_good_ok (parse : String → Option Storage.SDate)
    (s e : Storage.SDate) (ds st : String) (rest : List (String × String))
    (d : Storage.SDate) (tail : List (Storage.SDate × String))
    (hp : parse ds = some d) (hv : Storage.valid_status st = true)
    (hr : Storage.process_year_entries parse s e rest = .ok tail) :
    Storage.process_year_entries parse s e ((ds, st) :: rest) =
      .ok (if s.le d ∧ d.le e then (d, st) :: tail else tail) := by
  simp [Storage.process_year_entries, hp, hv, hr]

/-- Every error raised while processing a year file is a storage error. -/
theorem process_year_entries_error_storage (parse : String → Option Storage.SDate)
    (s e : Storage.SDate) (l : List (String × String)) :
    ∀ msg : SwiperError,
      Storage.process_year_entries parse s e l = .error msg →
        ∃ m, msg = .storage m := by
  induction l with
  | nil => exact fun msg h => Except.noConfusion h
  | cons hd rest ih =>
    obtain ⟨ds, st⟩ := hd
    intro msg h
    cases hp : parse ds with
    | none =>
      rw [process_cons_none parse s e ds st rest hp] at h
      exact ⟨_, ((Except.error.injEq _ _).mp h).symm⟩
    | some d =>
      cases hv : Storage.valid_status st with
      | false =>
        rw [process_cons_bad_status parse s e ds st rest d hp hv] at h
        exact ⟨_, ((Except.error.injEq _ _).mp h).symm⟩
      | true =>
        cases hr : Storage.process_year_entries parse s e rest with
        | error msg' =>
          rw [process_cons_good_error parse s e ds st rest d msg' hp hv hr] at h
          exact ((Except.error.injEq _ _).mp h) ▸ ih msg' hr
        | ok tail =>
          rw [process_cons_good_ok parse s e ds st rest d tail hp hv hr] at h
          exact Except.noConfusion h

/-- Processing one year file fails with a storage error exactly when some
entry of the file has an unparseable date or an invalid status. -/
theorem process_year_entries_error_iff (parse : String → Option Storage.SDate)
    (s e : Storage.SDate) (l : List (String × String)) :
    (∃ m, Storage.process_year_entries parse s e l = .error (.storage m)) ↔
      ∃ entry ∈ l, parse entry.1 = none ∨ Storage.valid_status entry.2 = false := by
  induction l with
  | nil => simp [Storage.process_year_entries]
  | cons hd rest ih =>
    obtain ⟨ds, st⟩ := hd
    cases hp : parse ds with
    | none =>
      rw [process_cons_none parse s e ds st rest hp]
      simp [hp]
    | some d =>
      cases hv : Storage.valid_status st with
      | false =>
        rw [process_cons_bad_status parse s e ds st rest d hp hv]
        simp [hp, hv]
      | true =>
        cases hr : Storage.process_year_entries parse s e rest with
        | error msg =>
          rw [hr] at ih
          rw [process_cons_good_error parse s e ds st rest d msg hp hv hr]
          simp only [Except.error.injEq] at ih ⊢
          rw [ih]
          simp [hp, hv]
        | ok tail =>
          rw [hr] at ih
          rw [process_cons_good_ok parse s e ds st rest d tail hp hv hr]
          simp only [reduceCtorEq, exists_false, false_iff] at ih ⊢
          simp [hp, hv, ih]

/-- Equation: a failing year file aborts the year loop. -/
theorem load_years_cons_error (parse : String → Option Storage.SDate)
    (files : Int → List (String × String)) (s e : Storage.SDate)
    (y : Int) (rest : List Int) (msg : SwiperError)
    (hy : Storage.process_year_entries parse s e (files y) = .error msg) :
    Storage.load_years parse files s e (y :: rest) = .error msg := by
  simp [Storage.load_years, hy]

/-- Equation: a successful year file propagates a failure of the remaining
years. -/
theorem load_years_cons_ok_error (parse : String → Option Storage.SDate)
    (files : Int → List (String × String)) (s e : Storage.SDate)
    (y : Int) (rest : List Int) (recs : List (Storage.SDate × String))
    (msg : SwiperError)
    (hy : Storage.process_year_entries parse s e (files y) = .ok recs)
    (hrest : Storage.load_years parse files s e rest = .error msg) :
    Storage.load_years parse files s e (y :: rest) = .error msg := by
  simp [Storage.load_years, hy, hrest]

/-- Equation: successful years accumulate their records in order. -/
theorem load_years_cons_ok_ok (parse : String → Option Storage.SDate)
    (files : Int → List (String × String)) (s e : Storage.SDate)
    (y : Int) (rest : List Int) (recs more : List (Storage.SDate × String))
    (hy : Storage.process_year_entries parse s e (files y) = .ok recs)
    (hrest : Storage.load_years parse files s e rest = .ok more) :
    Storage.load_years parse files s e (y :: rest) = .ok (recs ++ more) := by
  simp [Storage.load_years, hy, hrest]

/-- The year loop fails with a storage error exactly when some listed year
file has a bad entry. -/
theorem load_years_error_iff (parse : String → Option Storage.SDate)
    (files : Int → List (String × String)) (s e : Storage.SDate)
    (ys : List Int) :
    (∃ m, Storage.load_years parse files s e ys = .error (.storage m)) ↔
      ∃ y ∈ ys, ∃ entry ∈ files y,
        parse entry.1 = none ∨ Storage.valid_status entry.2 = false := by
  induction ys with
  | nil => simp [Storage.load_years]
  | cons y rest ih =>
    cases hy : Storage.process_year_entries parse s e (files y) with
    | error msg =>
      have hstor := process_year_entries_error_storage parse s e (files y) msg hy
      have hbad := process_year_entries_error_iff parse s e (files y)
      rw [hy] at hbad
      simp only [Except.error.injEq] at hbad
      have hA := hbad.mp hstor
      rw [load_years_cons_error parse files s e y rest msg hy]
      simp only [Except.error.injEq]
      refine ⟨fun _ => ?_, fun _ => hstor⟩
      obtain ⟨entry, hmem, hb⟩ := hA
      exact ⟨y, List.mem_cons_self y rest, entry, hmem, hb⟩
    | ok recs =>
      have hgood := process_year_entries_error_iff parse s e (files y)
      rw [hy] at hgood
      simp only [reduceCtorEq, exists_false, false_iff] at hgood
      cases hrest : Storage.load_years parse files s e rest with
      | error msg =>
        rw [hrest] at ih
        rw [load_years_cons_ok_error parse files s e y rest recs msg hy hrest]
        simp only [Except.error.injEq] at ih ⊢
        rw [ih]
        constructor
        · rintro ⟨y2, hmem, entry, he, hb⟩
          exact ⟨y2, List.mem_cons_of_mem y hmem, entry, he, hb⟩
        · rintro ⟨y2, hmem, entry, he, hb⟩
          rcases List.mem_cons.mp hmem with rfl | hmem2
          · exact (hgood ⟨entry, he, hb⟩).elim
          · exact ⟨y2, hmem2, entry, he, hb⟩
      | ok more =>
        rw [hrest] at ih
        rw [load_years_cons_ok_ok parse files s e y rest recs more hy hrest]
        simp only [reduceCtorEq, exists_false, false_iff] at ih ⊢
        rintro ⟨y2, hmem, entry, he, hb⟩
        rcases List.mem_cons.mp hmem with rfl | hmem2
        · exact hgood ⟨entry, he, hb⟩
        · exact ih ⟨y2, hmem2, entry, he, hb⟩

/-- Membership in the loaded-years list is exactly the year interval of the
query. -/
theorem mem_years_iff (s e : Storage.SDate) (y : Int) :
    y ∈ (List.range (e.year - s.year + 1).toNat).map
        (fun (i : Nat) => s.year + (i : Int)) ↔
      s.year ≤ y ∧ y ≤ e.year := by
  simp only [List.mem_map, List.mem_range]
  constructor
  · rintro ⟨i, hi, rfl⟩
    omega
  · intro hy
    exact ⟨(y - s.year).toNat, by omega, by omega⟩

/-- C10: `load_records` validates every record of every year file in
[start.year, end.year] before range filtering: the query fails with a
storage error exactly when some entry anywhere in a loaded year file has a
malformed date or an invalid status — even when that entry's date lies
outside [start_date, end_date] — and on failure no partial result is
produced. -/
theorem load_records_error_iff (parse : String → Option Storage.SDate)
    (files : Int → List (String × String)) (s e : Storage.SDate) :
    (∃ m, Storage.load_records parse files s e = .error (.storage m)) ↔
      ∃ y : Int, s.year ≤ y ∧ y ≤ e.year ∧ ∃ entry ∈ files y,
        parse entry.1 = none ∨ Storage.valid_status entry.2 = false := by
  have hyears := load_years_error_iff parse files s e
    ((List.range (e.year - s.year + 1).toNat).map (fun (i : Nat) => s.year + (i : Int)))
  cases hl : Storage.load_years parse files s e
      ((List.range (e.year - s.year + 1).toNat).map
        (fun (i : Nat) => s.year + (i : Int))) with
  | error msg =>
    rw [hl] at hyears
    simp only [Storage.load_records, hl]
    simp only [Except.error.injEq] at hyears ⊢
    rw [hyears]
    constructor
    · rintro ⟨y, hy, entry, hmem, hbad⟩
      rw [mem_years_iff] at hy
      exact ⟨y, hy.1, hy.2, entry, hmem, hbad⟩
    · rintro ⟨y, hy1, hy2, entry, hmem, hbad⟩
      exact ⟨y, (mem_years_iff s e y).mpr ⟨hy1, hy2⟩, entry, hmem, hbad⟩
  | ok recs =>
    rw [hl] at hyears
    simp only [reduceCtorEq, exists_false, false_iff] at hyears
    simp only [Storage.load_records, hl]
    constructor
    · rintro ⟨m, hm⟩
      exact Except.noConfusion hm
    · rintro ⟨y, hy1, hy2, entry, hmem, hbad⟩
      exact (hyears ⟨y, (mem_years_iff s e y).mpr ⟨hy1, hy2⟩, entry, hmem, hbad⟩).elim

end Swiper
